import Mathlib

/-!
Shallow embedding of the call-tracer core of `ai-core-utils`
(`src/core/plantuml_tracer.py`) and of the rendering collaborator
(`src/core/diagram_renderer.py`).

Python values, exceptions and runtime effects are modelled explicitly:

* `Value` is a closed model of the runtime values the formatter
  `PlantUMLTracer._format_value` dispatches on; the `exoticV` variant models
  an object whose reflection operations (the try-body, or retrieving
  `type(val).__name__`) can raise, which is what the nested
  `try`/`except` fallbacks in the source are for.
* `PyException` carries the exception's type name plus an opaque instance
  identity, so "re-raises the same exception instance" is expressible.
* `StackOutcome` models the outcome of `inspect.stack()[1]` inside the
  wrapper's `try` block: a frame record, an `IndexError`, or any other
  exception.  (Attribute reads on the returned `FrameInfo` named tuple and
  `Path(<str>).name` do not raise in CPython, so the failure points of the
  `try` block are at the stack retrieval itself.)
* Tracer state (`TracerState`) is the triple of the `_uml_lines` buffer, the
  `_participants` set (kept as a list, most recently added first; only
  membership is observable) and the `_pending_call` slot.
* Each invocation of a wrapped function is a `CallEvent`: the stack outcome,
  the callee's declared name, the argument values, and the outcome of
  executing the wrapped function.  `traceStep` is the body of `wrapper`
  in `PlantUMLTracer.trace`, returning the new state and what the wrapper
  returns (or raises).
-/

/-- A Python exception instance: its type's name and an opaque identity. -/
structure PyException where
  typeName : String
  instId : Nat
deriving DecidableEq

/-- Outcome of `inspect.stack()[1]` in the wrapper's caller-resolution
`try` block: a caller frame (its `function` and `filename` attributes),
an `IndexError`, or some other exception. -/
inductive StackOutcome where
  | ok (function : String) (filename : String)
  | indexError
  | otherError
deriving DecidableEq

/-- `Path(p).name` for a POSIX-style path string: the final component.
Models the `pathlib` basename used for `[Module: ...]` caller names and
for `Path` argument formatting. -/
def pathName (p : String) : String :=
  (p.splitOn "/").getLastD p

/-- Caller-name resolution in `wrapper` (`plantuml_tracer.py` lines 149-160):
`caller_name` starts as `"Unknown"`; `inspect.stack()[1]` either yields a
frame (whose `function` is used, with module-level frames renamed to
`"[Module: {filename}]"`), raises `IndexError` (then `"User"`), or raises
something else (then the initial `"Unknown"` survives via `pass`). -/
def resolveCaller : StackOutcome → String
  | .indexError => "User"
  | .otherError => "Unknown"
  | .ok fn file => if fn = "<module>" then "[Module: " ++ pathName file ++ "]" else fn

/-- Closed model of the runtime values `_format_value` dispatches on.
The variants are disjoint, mirroring the source's most-specific-first
`isinstance` ladder; `exoticV bodyFails typeNameFails typeName` models an
object for which the try-body raises (`bodyFails`) and/or retrieving
`type(val).__name__` raises (`typeNameFails`, e.g. an evil metaclass
`__name__` property). -/
inductive Value where
  | noneV
  | classV (name : String)
  | dataframeV (rows cols : Nat)
  | seriesV (name : Option String) (len : Nat)
  | strV (s : String)
  | intV (n : Int)
  | floatV (mant : Int) (exp : Int)
  | boolV (b : Bool)
  | pathV (path : String)
  | listV (len : Nat)
  | dictV (len : Nat)
  | tupleV (len : Nat)
  | objV (typeName : String)
  | exoticV (bodyFails : Bool) (typeNameFails : Bool) (typeName : String)
deriving DecidableEq

/-- Python `repr` of a `str` (quoting; escape sequences not modelled). -/
def pyReprStr (s : String) : String := "'" ++ s ++ "'"

/-- Python `repr` of a `float`, modelled as mantissa/exponent text. -/
def pyReprFloat (m e : Int) : String := toString m ++ "e" ++ toString e

/-- Python `repr` of a `bool`. -/
def pyReprBool : Bool → String
  | true => "True"
  | false => "False"

/-- `val.name if val.name else "Series"`: Python truthiness on the name
(`None` and the empty string are falsy). -/
def seriesName : Option String → String
  | none => "Series"
  | some s => if s = "" then "Series" else s

/-- `type(val).__name__`, which can itself raise for `exoticV`. -/
def typeNameOf : Value → Except Unit String
  | .noneV => .ok "NoneType"
  | .classV _ => .ok "type"
  | .dataframeV _ _ => .ok "DataFrame"
  | .seriesV _ _ => .ok "Series"
  | .strV _ => .ok "str"
  | .intV _ => .ok "int"
  | .floatV _ _ => .ok "float"
  | .boolV _ => .ok "bool"
  | .pathV _ => .ok "PosixPath"
  | .listV _ => .ok "list"
  | .dictV _ => .ok "dict"
  | .tupleV _ => .ok "tuple"
  | .objV n => .ok n
  | .exoticV _ tf n => if tf then .error () else .ok n

/-- The `try` body of `_format_value` (`plantuml_tracer.py` lines 75-106):
the dispatch ladder, which either produces a string or raises.  The
`"pandas" in sys.modules` guard is always true in the source (the module
imports pandas at top level), so the pandas branches are unconditional. -/
def formatValueCore : Value → Except Unit String
  | .noneV => .ok "None"
  | .classV n => .ok ("<Class: " ++ n ++ ">")
  | .dataframeV r c => .ok ("<DataFrame shape=(" ++ toString r ++ ", " ++ toString c ++ ")>")
  | .seriesV nm len => .ok ("<" ++ seriesName nm ++ " len=" ++ toString len ++ ">")
  | .strV s => .ok (pyReprStr s)
  | .intV n => .ok (toString n)
  | .floatV m e => .ok (pyReprFloat m e)
  | .boolV b => .ok (pyReprBool b)
  | .pathV p => .ok ("Path('" ++ pathName p ++ "')")
  | .listV len => .ok ("<list len=" ++ toString len ++ ">")
  | .dictV len => .ok ("<dict len=" ++ toString len ++ ">")
  | .tupleV len => .ok ("<tuple len=" ++ toString len ++ ">")
  | .objV n => .ok ("<" ++ n ++ " object>")
  | .exoticV bodyFails tf n =>
      if bodyFails then .error ()
      else
        match typeNameOf (.exoticV bodyFails tf n) with
        | .ok nm => .ok ("<" ++ nm ++ " object>")
        | .error _ => .error ()

/-- `PlantUMLTracer._format_value`: the try-body, then the
`"<Object type: {TypeName}>"` fallback, then the fixed literal if even the
fallback's `type(val).__name__` raises. -/
def formatValue (v : Value) : String :=
  match formatValueCore v with
  | .ok s => s
  | .error _ =>
    match typeNameOf v with
    | .ok n => "<Object type: " ++ n ++ ">"
    | .error _ => "<Error: Unformattable Object>"

/-- The `_pending_call` record: identity, representative line-set, count. -/
structure PendingCall where
  info : String × String
  lines : List String
  count : Nat
deriving DecidableEq

/-- Tracer state: `_uml_lines`, `_participants` (a set; list kept
most-recently-added first, only membership is consulted), `_pending_call`. -/
structure TracerState where
  uml_lines : List String
  participants : List String
  pending_call : Option PendingCall
deriving DecidableEq

/-- `PlantUMLTracer.LOOP_THRESHOLD`. -/
def LOOP_THRESHOLD : Nat := 3

/-- `PlantUMLTracer.__init__`. -/
def initState : TracerState :=
  { uml_lines := ["@startuml"], participants := [], pending_call := none }

/-- The text of one participant declaration line. -/
def participantDecl (name : String) : String := "participant \"" ++ name ++ "\""

/-- `PlantUMLTracer._add_participant`: if the name is new, add it to the set
and insert its declaration at index 1 of `_uml_lines` (right after
`@startuml`, before all previously inserted declarations). -/
def addParticipant (st : TracerState) (name : String) : TracerState :=
  if name ∈ st.participants then st
  else { st with
         participants := name :: st.participants,
         uml_lines := st.uml_lines.insertIdx 1 (participantDecl name) }

/-- `PlantUMLTracer._flush_pending_call`: no-op when nothing is pending;
otherwise append a `loop N times` / lines / `end` block when
`count >= LOOP_THRESHOLD`, else append the lines `count` times, then clear
the slot. -/
def flushPendingCall (st : TracerState) : TracerState :=
  match st.pending_call with
  | none => st
  | some cd =>
      if LOOP_THRESHOLD ≤ cd.count then
        { st with
          uml_lines := st.uml_lines
            ++ ["loop " ++ toString cd.count ++ " times"] ++ cd.lines ++ ["end"],
          pending_call := none }
      else
        { st with
          uml_lines := st.uml_lines ++ (List.replicate cd.count cd.lines).flatten,
          pending_call := none }

/-- One invocation of a wrapped function: the stack-inspection outcome, the
callee's `__name__`, the positional and keyword argument values, and the
result of executing the wrapped function (a value, or a raised exception). -/
structure CallEvent where
  stackOutcome : StackOutcome
  calleeName : String
  args : List Value
  kwargs : List (String × Value)
  funcResult : Except PyException Value

/-- Caller name this event resolves to. -/
def eventCaller (ev : CallEvent) : String := resolveCaller ev.stackOutcome

/-- `current_call_info = (caller_name, callee_name)`. -/
def eventIdentity (ev : CallEvent) : String × String := (eventCaller ev, ev.calleeName)

/-- `full_sig`: formatted positional args, then `key=value` keyword args,
joined with `", "`, truncated to 100 characters plus `"..."` if longer. -/
def fullSigOf (ev : CallEvent) : String :=
  let argsRepr := ev.args.map formatValue
  let kwargsRepr := ev.kwargs.map (fun kv => kv.1 ++ "=" ++ formatValue kv.2)
  let s := String.intercalate ", " (argsRepr ++ kwargsRepr)
  if 100 < s.length then s.take 100 ++ "..." else s

/-- `call_signature = f"{callee_name}({full_sig})"`. -/
def callSignatureOf (ev : CallEvent) : String :=
  ev.calleeName ++ "(" ++ fullSigOf ev ++ ")"

/-- The 28 spaces of indentation that the f-string line continuation
(backslash-newline inside the literal at `plantuml_tracer.py` lines
208-209) embeds into the success return line. -/
def returnIndent : String := "                            "

/-- The four lines built for the first call of a run
(`call_lines + return_lines`): call arrow, activate, return arrow (success,
with the line-continuation indentation) or `-x` exception arrow (failure),
then deactivate. -/
def eventLines (ev : CallEvent) : List String :=
  let caller := eventCaller ev
  let callee := ev.calleeName
  ["\"" ++ caller ++ "\" -> \"" ++ callee ++ "\": " ++ callSignatureOf ev,
   "activate \"" ++ callee ++ "\""]
  ++ (match ev.funcResult with
      | .ok r =>
          ["\"" ++ callee ++ "\" --> \"" ++ caller ++ "\": " ++ returnIndent
            ++ "return " ++ formatValue r]
      | .error e =>
          ["\"" ++ callee ++ "\" -x \"" ++ caller ++ "\": raise " ++ e.typeName])
  ++ ["deactivate \"" ++ callee ++ "\""]

/-- The new-call branch of `wrapper`: flush the previous pending group, then
store this call's lines as the new pending group with count 1; the wrapper
returns the function's result or re-raises its exception. -/
def newCallStep (st : TracerState) (ev : CallEvent) :
    TracerState × Except PyException Value :=
  let st := flushPendingCall st
  ({ st with
     pending_call := some { info := eventIdentity ev, lines := eventLines ev, count := 1 } },
   ev.funcResult)

/-- The body of `wrapper` in `PlantUMLTracer.trace`: resolve the caller,
register both participants, then either merge into the pending group (same
identity: increment count, emit nothing, pass the result through) or take
the new-call branch. -/
def traceStep (st : TracerState) (ev : CallEvent) :
    TracerState × Except PyException Value :=
  let st := addParticipant st (eventCaller ev)
  let st := addParticipant st ev.calleeName
  match st.pending_call with
  | some pc =>
      if pc.info = eventIdentity ev then
        ({ st with pending_call := some { pc with count := pc.count + 1 } },
         ev.funcResult)
      else newCallStep st ev
  | none => newCallStep st ev

/-- Fold a sequence of traced invocations through the tracer state. -/
def runTrace (st : TracerState) (evs : List CallEvent) : TracerState :=
  evs.foldl (fun s e => (traceStep s e).1) st

/-- `PlantUMLTracer.get_diagram`: flush, then join the lines and close the
diagram.  Returns the post-flush state together with the text. -/
def getDiagram (st : TracerState) : TracerState × String :=
  let st := flushPendingCall st
  (st, String.intercalate "\n" st.uml_lines ++ "\n@enduml\n")

/-! ### First-seen bookkeeping for participant declarations -/

/-- One step of recording a name, newest first (what `_add_participant`
does to the participant list). -/
def stepSeen (acc : List String) (n : String) : List String :=
  if n ∈ acc then acc else n :: acc

/-- The participant list (newest first) after observing `ns` in order. -/
def seenAcc (ns : List String) : List String := ns.foldl stepSeen []

/-- One step of recording a name in first-seen order. -/
def stepFirstSeen (acc : List String) (n : String) : List String :=
  if n ∈ acc then acc else acc ++ [n]

/-- The distinct names of `ns` in first-seen order. -/
def firstSeenList (ns : List String) : List String := ns.foldl stepFirstSeen []

/-- The participant names one invocation registers, in registration order
(caller first, then callee). -/
def eventNames (ev : CallEvent) : List String := [eventCaller ev, ev.calleeName]

/-- All participant names a run registers, in registration order. -/
def traceNames (evs : List CallEvent) : List String := (evs.map eventNames).flatten

/-! ### Model of `render_plantuml_to_png` (`diagram_renderer.py`)

The function's effects happen in a fixed order inside one `try`:
`mkdir` the output directory, write the `.puml` source, check that the
PlantUML jar exists (early `return False`), run `java` via
`subprocess.run(..., check=True)` (raising `FileNotFoundError` if `java`
is absent and `CalledProcessError` on a non-zero exit), then report
`True` iff the `.png` exists.  Every `except` handler returns `False`.
`RenderWorld` fixes which of these steps fail; `renderPlantumlToPng`
replays the source's control flow over it. -/

/-- Which effects fail when `render_plantuml_to_png` runs. -/
structure RenderWorld where
  mkdirFails : Bool
  writeFails : Bool
  jarExists : Bool
  javaMissing : Bool
  exitCode : Nat
  pngExists : Bool
deriving DecidableEq

/-- Where `render_plantuml_to_png` gave up, when it did. -/
inductive RenderFailure where
  | mkdirError
  | writeError
  | jarNotFound
  | javaNotFound
  | calledProcessError
  | pngMissing
deriving DecidableEq

/-- What a run of `render_plantuml_to_png` did: the returned boolean,
whether the `.puml` source file had been written by the time it returned,
and the failure it hit, if any. -/
structure RenderResult where
  returnValue : Bool
  pumlWritten : Bool
  failure : Option RenderFailure
deriving DecidableEq

/-- `render_plantuml_to_png` (`diagram_renderer.py` lines 14-89), replayed
over a `RenderWorld`.  The function never raises: every failure path is an
early `return False` or a caught exception returning `False`. -/
def renderPlantumlToPng (w : RenderWorld) : RenderResult :=
  if w.mkdirFails then
    { returnValue := false, pumlWritten := false, failure := some .mkdirError }
  else if w.writeFails then
    { returnValue := false, pumlWritten := false, failure := some .writeError }
  else if w.jarExists = false then
    { returnValue := false, pumlWritten := true, failure := some .jarNotFound }
  else if w.javaMissing then
    { returnValue := false, pumlWritten := true, failure := some .javaNotFound }
  else if w.exitCode ≠ 0 then
    { returnValue := false, pumlWritten := true, failure := some .calledProcessError }
  else if w.pngExists then
    { returnValue := true, pumlWritten := true, failure := none }
  else
    { returnValue := false, pumlWritten := true, failure := some .pngMissing }

/-! ### Concrete sample invocations used by witnesses and counterexamples -/

/-- A call from function `A` to `B` returning the int 42. -/
def evSucc : CallEvent :=
  { stackOutcome := .ok "A" "main.py", calleeName := "B",
    args := [], kwargs := [], funcResult := .ok (.intV 42) }

/-- A repeat of the `A -> B` identity with different arguments. -/
def evRep1 : CallEvent :=
  { stackOutcome := .ok "A" "main.py", calleeName := "B",
    args := [.intV 7], kwargs := [], funcResult := .ok (.intV 43) }

/-- Another repeat of the `A -> B` identity with different arguments. -/
def evRep2 : CallEvent :=
  { stackOutcome := .ok "A" "main.py", calleeName := "B",
    args := [.strV "x"], kwargs := [], funcResult := .ok .noneV }

/-- A call from `A` to `C` that raises a `ValueError`. -/
def evFail : CallEvent :=
  { stackOutcome := .ok "A" "main.py", calleeName := "C",
    args := [], kwargs := [], funcResult := .error { typeName := "ValueError", instId := 0 } }

/-- A call whose caller-frame inspection raises a non-`IndexError`. -/
def evOther : CallEvent :=
  { stackOutcome := .otherError, calleeName := "D",
    args := [], kwargs := [], funcResult := .ok .noneV }

/-- The tracer state after tracing `evSucc` once from a fresh tracer. -/
def stAfterSucc : TracerState := (traceStep initState evSucc).1

/-- A render world where everything works except that the PlantUML jar is
missing. -/
def w0 : RenderWorld :=
  { mkdirFails := false, writeFails := false, jarExists := false,
    javaMissing := false, exitCode := 0, pngExists := true }

/-- Invariant tying a tracer state to the names registered so far:
the participant list is exactly the seen-set (newest first), `_uml_lines`
is the opening marker, then the participant declarations (newest first),
then body lines none of which starts with the letter of a participant
declaration, and any pending lines likewise. -/
def GoodState (st : TracerState) (ns : List String) : Prop :=
  st.participants = seenAcc ns
  ∧ (∃ body : List String,
      st.uml_lines = "@startuml" :: st.participants.map participantDecl ++ body
      ∧ ∀ l ∈ body, l.data.head? ≠ some 'p')
  ∧ ∀ pc : PendingCall, st.pending_call = some pc → ∀ l ∈ pc.lines, l.data.head? ≠ some 'p'

/-! ### Helper lemmas -/

theorem str_ne_empty_of_length_pos (s : String) (h : 0 < s.length) : s ≠ "" := by
  intro he
  subst he
  simp at h

theorem length_append_left_pos (s t : String) (h : 0 < s.length) : 0 < (s ++ t).length := by
  rw [String.length_append]
  omega

theorem string_head_ne {s t : String} {c d : Char} (hs : s.data.head? = some c)
    (ht : t.data.head? = some d) (hcd : c ≠ d) : s ≠ t := by
  intro h
  subst h
  rw [hs] at ht
  exact hcd (Option.some.inj ht)

theorem toDigitsCore_length_ge (b : Nat) :
    ∀ (f n : Nat) (ds : List Char), ds.length ≤ (Nat.toDigitsCore b f n ds).length := by
  intro f
  induction f with
  | zero => intro n ds; simp [Nat.toDigitsCore]
  | succ f ih =>
      intro n ds
      simp only [Nat.toDigitsCore]
      split
      · simp
      · calc ds.length ≤ (Nat.digitChar (n % b) :: ds).length := by simp
          _ ≤ _ := ih (n / b) (Nat.digitChar (n % b) :: ds)

theorem natRepr_length_pos (n : Nat) : 0 < (Nat.repr n).length := by
  show 0 < (Nat.toDigits 10 n).asString.length
  have h : 0 < (Nat.toDigits 10 n).length := by
    show 0 < (Nat.toDigitsCore 10 (n + 1) n []).length
    simp only [Nat.toDigitsCore]
    split
    · simp
    · calc 0 < (Nat.digitChar (n % 10) :: []).length := by simp
        _ ≤ _ := toDigitsCore_length_ge 10 n (n / 10) _
  simpa [List.asString, String.length] using h

theorem intToString_length_pos (n : Int) : 0 < (toString n).length := by
  show 0 < (Int.repr n).length
  cases n with
  | ofNat m => exact natRepr_length_pos m
  | negSucc m =>
      show 0 < ("-" ++ Nat.repr (m + 1)).length
      rw [String.length_append]
      have h1 : ("-" : String).length = 1 := rfl
      have h2 := natRepr_length_pos (m + 1)
      omega

theorem addParticipant_pending (st : TracerState) (n : String) :
    (addParticipant st n).pending_call = st.pending_call := by
  unfold addParticipant
  split <;> rfl

theorem addParticipant_of_mem (st : TracerState) (n : String) (h : n ∈ st.participants) :
    addParticipant st n = st := by
  simp [addParticipant, h]

theorem mem_addParticipant_self (st : TracerState) (n : String) :
    n ∈ (addParticipant st n).participants := by
  by_cases h : n ∈ st.participants <;> simp [addParticipant, h]

theorem mem_addParticipant_of_mem (st : TracerState) (m n : String)
    (h : m ∈ st.participants) : m ∈ (addParticipant st n).participants := by
  by_cases hn : n ∈ st.participants <;> simp [addParticipant, hn, h]

theorem flushPendingCall_of_none (st : TracerState) (h : st.pending_call = none) :
    flushPendingCall st = st := by
  unfold flushPendingCall
  rw [h]

theorem flushPendingCall_pending (st : TracerState) :
    (flushPendingCall st).pending_call = none := by
  cases h : st.pending_call with
  | none => rw [flushPendingCall_of_none st h, h]
  | some cd =>
      simp only [flushPendingCall, h]
      split <;> rfl

theorem traceStep_snd (st : TracerState) (ev : CallEvent) :
    (traceStep st ev).2 = ev.funcResult := by
  simp only [traceStep, newCallStep]
  split
  · split <;> rfl
  · rfl

theorem traceStep_state_none (st : TracerState) (ev : CallEvent) (h : st.pending_call = none) :
    (traceStep st ev).1
      = { addParticipant (addParticipant st (eventCaller ev)) ev.calleeName with
          pending_call := some { info := eventIdentity ev, lines := eventLines ev, count := 1 } } := by
  have hp : (addParticipant (addParticipant st (eventCaller ev)) ev.calleeName).pending_call
      = none := by
    rw [addParticipant_pending, addParticipant_pending, h]
  simp only [traceStep, newCallStep]
  rw [hp]
  rw [flushPendingCall_of_none _ hp]

theorem traceStep_state_repeat (st : TracerState) (pc : PendingCall) (ev : CallEvent)
    (h : st.pending_call = some pc) (hid : pc.info = eventIdentity ev)
    (hc : eventCaller ev ∈ st.participants) (he : ev.calleeName ∈ st.participants) :
    (traceStep st ev).1 = { st with pending_call := some { pc with count := pc.count + 1 } } := by
  have h1 : addParticipant st (eventCaller ev) = st := addParticipant_of_mem _ _ hc
  have h2 : addParticipant st ev.calleeName = st := addParticipant_of_mem _ _ he
  simp only [traceStep, newCallStep, h1, h2]
  rw [h]
  simp [hid]

theorem runTrace_cons (st : TracerState) (ev : CallEvent) (evs : List CallEvent) :
    runTrace st (ev :: evs) = runTrace (traceStep st ev).1 evs := rfl

theorem runTrace_repeat : ∀ (evs : List CallEvent) (st : TracerState) (pc : PendingCall),
    st.pending_call = some pc → (∀ e ∈ evs, eventIdentity e = pc.info) →
    pc.info.1 ∈ st.participants → pc.info.2 ∈ st.participants →
    runTrace st evs
      = { st with pending_call := some { pc with count := pc.count + evs.length } } := by
  intro evs
  induction evs with
  | nil =>
      intro st pc h _ _ _
      obtain ⟨u, p, pd⟩ := st
      simp only at h
      subst h
      rfl
  | cons e evs ih =>
      intro st pc h hall hc1 hc2
      have hid : pc.info = eventIdentity e := (hall e (List.mem_cons_self e evs)).symm
      have hc1' : eventCaller e ∈ st.participants := by
        have : eventCaller e = pc.info.1 := by rw [hid]; rfl
        rw [this]; exact hc1
      have hc2' : e.calleeName ∈ st.participants := by
        have : e.calleeName = pc.info.2 := by rw [hid]; rfl
        rw [this]; exact hc2
      rw [runTrace_cons, traceStep_state_repeat st pc e h hid hc1' hc2']
      have hrec := ih { st with pending_call := some { pc with count := pc.count + 1 } }
        { pc with count := pc.count + 1 } rfl
        (by intro x hx; exact hall x (List.mem_cons_of_mem _ hx)) hc1 hc2
      rw [hrec]
      have hcount : pc.count + 1 + evs.length = pc.count + (e :: evs).length := by
        simp
        omega
      rw [hcount]

theorem flushPendingCall_loop (st : TracerState) (pc : PendingCall)
    (h : st.pending_call = some pc) (hn : LOOP_THRESHOLD ≤ pc.count) :
    flushPendingCall st
      = { st with
          uml_lines := st.uml_lines
            ++ ["loop " ++ toString pc.count ++ " times"] ++ pc.lines ++ ["end"],
          pending_call := none } := by
  simp only [flushPendingCall, h]
  rw [if_pos hn]

theorem flushPendingCall_unroll (st : TracerState) (pc : PendingCall)
    (h : st.pending_call = some pc) (hn : pc.count < LOOP_THRESHOLD) :
    flushPendingCall st
      = { st with
          uml_lines := st.uml_lines ++ (List.replicate pc.count pc.lines).flatten,
          pending_call := none } := by
  simp only [flushPendingCall, h]
  rw [if_neg (by omega)]

theorem eventLines_head (ev : CallEvent) :
    ∀ l ∈ eventLines ev,
      l.data.head? = some '"' ∨ l.data.head? = some 'a' ∨ l.data.head? = some 'd' := by
  intro l hl
  cases hr : ev.funcResult with
  | ok r =>
      simp only [eventLines, hr] at hl
      simp at hl
      rcases hl with rfl | rfl | rfl | rfl
      · exact Or.inl rfl
      · exact Or.inr (Or.inl rfl)
      · exact Or.inl rfl
      · exact Or.inr (Or.inr rfl)
  | error e =>
      simp only [eventLines, hr] at hl
      simp at hl
      rcases hl with rfl | rfl | rfl | rfl
      · exact Or.inl rfl
      · exact Or.inr (Or.inl rfl)
      · exact Or.inl rfl
      · exact Or.inr (Or.inr rfl)

theorem eventLines_no_markers (ev : CallEvent) :
    ∀ l ∈ eventLines ev,
      (∀ k : Nat, l ≠ "loop " ++ toString k ++ " times") ∧ l ≠ "end" := by
  intro l hl
  refine ⟨fun k => ?_, ?_⟩
  · rcases eventLines_head ev l hl with h | h | h <;>
      exact string_head_ne h rfl (by decide)
  · rcases eventLines_head ev l hl with h | h | h <;>
      exact string_head_ne h rfl (by decide)

theorem traceStep_state_new_none (st : TracerState) (ev : CallEvent)
    (hpc : (addParticipant (addParticipant st (eventCaller ev)) ev.calleeName).pending_call
      = none) :
    (traceStep st ev).1
      = { flushPendingCall (addParticipant (addParticipant st (eventCaller ev)) ev.calleeName)
          with pending_call := some { info := eventIdentity ev, lines := eventLines ev, count := 1 } } := by
  simp only [traceStep, newCallStep]
  rw [hpc]

theorem traceStep_state_new_mismatch (st : TracerState) (ev : CallEvent) (pc : PendingCall)
    (hpc : (addParticipant (addParticipant st (eventCaller ev)) ev.calleeName).pending_call
      = some pc)
    (hid : pc.info ≠ eventIdentity ev) :
    (traceStep st ev).1
      = { flushPendingCall (addParticipant (addParticipant st (eventCaller ev)) ev.calleeName)
          with pending_call := some { info := eventIdentity ev, lines := eventLines ev, count := 1 } } := by
  simp only [traceStep, newCallStep]
  rw [hpc]
  simp [hid]

theorem traceStep_state_repeat2 (st : TracerState) (ev : CallEvent) (pc : PendingCall)
    (hpc : (addParticipant (addParticipant st (eventCaller ev)) ev.calleeName).pending_call
      = some pc)
    (hid : pc.info = eventIdentity ev) :
    (traceStep st ev).1
      = { addParticipant (addParticipant st (eventCaller ev)) ev.calleeName
          with pending_call := some { pc with count := pc.count + 1 } } := by
  simp only [traceStep, newCallStep]
  rw [hpc]
  simp [hid]

theorem addParticipant_good (st : TracerState) (ns : List String) (n : String)
    (h : GoodState st ns) : GoodState (addParticipant st n) (ns ++ [n]) := by
  obtain ⟨hp, ⟨body, hu, hb⟩, hpend⟩ := h
  have hseen : seenAcc (ns ++ [n]) = stepSeen (seenAcc ns) n := by
    simp [seenAcc, List.foldl_append]
  by_cases hmem : n ∈ st.participants
  · rw [addParticipant_of_mem st n hmem]
    refine ⟨?_, ⟨body, hu, hb⟩, hpend⟩
    rw [hseen, ← hp]
    simp [stepSeen, hmem]
  · refine ⟨?_, ⟨body, ?_, hb⟩, ?_⟩
    · rw [hseen, ← hp]
      simp [addParticipant, hmem, stepSeen]
    · simp only [addParticipant, hmem, if_false]
      rw [hu]
      simp [addParticipant, hmem, List.insertIdx]
    · intro pc hpc
      apply hpend
      rw [← addParticipant_pending st n]
      exact hpc

theorem flush_good (st : TracerState) (ns : List String) (h : GoodState st ns) :
    GoodState (flushPendingCall st) ns := by
  obtain ⟨hp, ⟨body, hu, hb⟩, hpend⟩ := h
  cases hpc : st.pending_call with
  | none =>
      rw [flushPendingCall_of_none st hpc]
      exact ⟨hp, ⟨body, hu, hb⟩, hpend⟩
  | some cd =>
      have hlines := hpend cd hpc
      have hloop : ∀ k : Nat, ("loop " ++ toString k ++ " times").data.head? ≠ some 'p' := by
        intro k hq
        rw [show ("loop " ++ toString k ++ " times").data.head? = some 'l' from rfl] at hq
        cases hq
      have hend : ("end" : String).data.head? ≠ some 'p' := by decide
      by_cases hth : LOOP_THRESHOLD ≤ cd.count
      · rw [flushPendingCall_loop st cd hpc hth]
        refine ⟨hp,
          ⟨body ++ ["loop " ++ toString cd.count ++ " times"] ++ cd.lines ++ ["end"], ?_, ?_⟩,
          ?_⟩
        · rw [hu]; simp
        · intro l hl
          simp only [List.append_assoc, List.mem_append, List.mem_singleton,
            List.mem_cons, List.not_mem_nil, or_false] at hl
          rcases hl with hl | hl | hl | hl
          · exact hb l hl
          · subst hl; exact hloop cd.count
          · exact hlines l hl
          · subst hl; exact hend
        · intro pc hq
          simp at hq
      · rw [flushPendingCall_unroll st cd hpc (by omega)]
        refine ⟨hp, ⟨body ++ (List.replicate cd.count cd.lines).flatten, ?_, ?_⟩, ?_⟩
        · rw [hu]; simp
        · intro l hl
          simp only [List.mem_append] at hl
          rcases hl with hl | hl
          · exact hb l hl
          · simp only [List.mem_flatten, List.mem_replicate] at hl
            obtain ⟨lst, ⟨_, rfl⟩, hmem⟩ := hl
            exact hlines l hmem
        · intro pc hq
          simp at hq

theorem traceStep_good (st : TracerState) (ns : List String) (ev : CallEvent)
    (h : GoodState st ns) : GoodState (traceStep st ev).1 (ns ++ eventNames ev) := by
  have h2 : GoodState (addParticipant (addParticipant st (eventCaller ev)) ev.calleeName)
      (ns ++ eventNames ev) := by
    have := addParticipant_good _ _ ev.calleeName
      (addParticipant_good _ _ (eventCaller ev) h)
    simpa [eventNames] using this
  have hev : ∀ l ∈ eventLines ev, l.data.head? ≠ some 'p' := by
    intro l hl hq
    rcases eventLines_head ev l hl with hh | hh | hh <;> rw [hh] at hq <;> cases hq
  cases hpc : (addParticipant (addParticipant st (eventCaller ev)) ev.calleeName).pending_call with
  | some pc =>
      by_cases hid : pc.info = eventIdentity ev
      · rw [traceStep_state_repeat2 st ev pc hpc hid]
        obtain ⟨hp, hbody, hpend⟩ := h2
        refine ⟨hp, hbody, ?_⟩
        intro pc' hpc'
        simp only [Option.some.injEq] at hpc'
        have : pc'.lines = pc.lines := by rw [← hpc']
        rw [this]
        exact hpend pc hpc
      · rw [traceStep_state_new_mismatch st ev pc hpc hid]
        obtain ⟨hp, hbody, hpend⟩ := flush_good _ _ h2
        refine ⟨hp, hbody, ?_⟩
        intro pc' hpc'
        simp only [Option.some.injEq] at hpc'
        have : pc'.lines = eventLines ev := by rw [← hpc']
        rw [this]
        exact hev
  | none =>
      rw [traceStep_state_new_none st ev hpc]
      obtain ⟨hp, hbody, hpend⟩ := flush_good _ _ h2
      refine ⟨hp, hbody, ?_⟩
      intro pc' hpc'
      simp only [Option.some.injEq] at hpc'
      have : pc'.lines = eventLines ev := by rw [← hpc']
      rw [this]
      exact hev

theorem runTrace_good : ∀ (evs : List CallEvent) (st : TracerState) (ns : List String),
    GoodState st ns → GoodState (runTrace st evs) (ns ++ traceNames evs) := by
  intro evs
  induction evs with
  | nil =>
      intro st ns h
      simpa [runTrace, traceNames] using h
  | cons e evs ih =>
      intro st ns h
      rw [runTrace_cons]
      have h2 := ih (traceStep st e).1 (ns ++ eventNames e) (traceStep_good st ns e h)
      have heq : (ns ++ eventNames e) ++ traceNames evs = ns ++ traceNames (e :: evs) := by
        simp [traceNames]
      rwa [heq] at h2

theorem initState_good : GoodState initState [] := by
  refine ⟨rfl, ⟨[], by simp [initState], by simp⟩, ?_⟩
  intro pc h
  simp [initState] at h

theorem foldl_seen_reverse : ∀ (ns acc : List String),
    ns.foldl stepSeen acc = (ns.foldl stepFirstSeen acc.reverse).reverse := by
  intro ns
  induction ns with
  | nil => intro acc; simp
  | cons n ns ih =>
      intro acc
      simp only [List.foldl_cons]
      rw [ih (stepSeen acc n)]
      have hstep : (stepSeen acc n).reverse = stepFirstSeen acc.reverse n := by
        by_cases hm : n ∈ acc
        · simp [stepSeen, stepFirstSeen, hm]
        · simp [stepSeen, stepFirstSeen, hm]
      rw [hstep]

theorem seenAcc_eq_reverse (ns : List String) : seenAcc ns = (firstSeenList ns).reverse := by
  simpa [seenAcc, firstSeenList] using foldl_seen_reverse ns []

theorem seenAcc_nodup_aux : ∀ (ns acc : List String), acc.Nodup → (ns.foldl stepSeen acc).Nodup := by
  intro ns
  induction ns with
  | nil => intro acc h; simpa using h
  | cons n ns ih =>
      intro acc h
      simp only [List.foldl_cons]
      apply ih
      by_cases hm : n ∈ acc
      · simpa [stepSeen, hm] using h
      · simp [stepSeen, hm, h]

theorem firstSeenList_nodup (ns : List String) : (firstSeenList ns).Nodup := by
  have h := seenAcc_nodup_aux ns [] (by simp)
  rw [show ns.foldl stepSeen [] = seenAcc ns from rfl, seenAcc_eq_reverse] at h
  exact List.nodup_reverse.mp h

/-! ### Claim theorems -/

/-- C1: for every function wrapped by `trace` and every invocation, the
wrapped call returns exactly what the wrapped function produced: the same
value on success, and on failure the very same exception instance is
re-raised to the caller. -/
theorem C1_trace_behavior_preserving (st : TracerState) (ev : CallEvent) :
    (traceStep st ev).2 = ev.funcResult :=
  traceStep_snd st ev

/-- C6: calling `get_diagram` twice in a row with no intervening traced
calls returns identical text both times: the first call flushes any pending
group, the second finds nothing to flush. -/
theorem C6_getDiagram_idempotent_text (st : TracerState) :
    (getDiagram (getDiagram st).1).2 = (getDiagram st).2 := by
  have h : flushPendingCall (flushPendingCall st) = flushPendingCall st :=
    flushPendingCall_of_none _ (flushPendingCall_pending st)
  simp only [getDiagram]
  rw [h]

/-- C8: a consecutive call with the same (caller, callee) identity as the
pending group — regardless of its argument values — is merged into the
group: the count is incremented, no diagram line changes, the pending
representative lines (the first occurrence's signature) are kept, and the
function's own result is passed through. -/
theorem C8_repeat_merges (st : TracerState) (pc : PendingCall) (ev : CallEvent)
    (h : st.pending_call = some pc) (hid : pc.info = eventIdentity ev)
    (hc : eventCaller ev ∈ st.participants) (he : ev.calleeName ∈ st.participants) :
    traceStep st ev
      = ({ st with pending_call := some { pc with count := pc.count + 1 } },
         ev.funcResult) := by
  have h1 := traceStep_state_repeat st pc ev h hid hc he
  have h2 := traceStep_snd st ev
  rw [← h1, ← h2]

/-- Witness for C8 at a concrete repeat whose arguments differ from the
first occurrence's. -/
theorem C8_repeat_merges_witness :
    stAfterSucc.pending_call
        = some { info := ("A", "B"), lines := eventLines evSucc, count := 1 }
    ∧ ({ info := ("A", "B"), lines := eventLines evSucc, count := 1 } : PendingCall).info
        = eventIdentity evRep1
    ∧ eventCaller evRep1 ∈ stAfterSucc.participants
    ∧ evRep1.calleeName ∈ stAfterSucc.participants
    ∧ traceStep stAfterSucc evRep1
        = ({ stAfterSucc with
             pending_call := some { info := ("A", "B"), lines := eventLines evSucc,
                                    count := 1 + 1 } },
           evRep1.funcResult) :=
  ⟨rfl, rfl, by decide, by decide,
    C8_repeat_merges stAfterSucc
      { info := ("A", "B"), lines := eventLines evSucc, count := 1 }
      evRep1 rfl rfl (by decide) (by decide)⟩

/-- C10: when caller-frame inspection raises an exception other than
`IndexError`, the wrapped call proceeds with the pre-initialized caller
name `"Unknown"` (not the `"User"` fallback, which is reserved for the
`IndexError` case) and the resolution error never propagates: the wrapper
still returns the wrapped function's own result. -/
theorem C10_resolution_failure_unknown (st : TracerState) (ev : CallEvent)
    (h : ev.stackOutcome = .otherError) :
    eventCaller ev = "Unknown" ∧ eventCaller ev ≠ "User"
      ∧ (traceStep st ev).2 = ev.funcResult := by
  have h1 : eventCaller ev = "Unknown" := by
    rw [eventCaller, h]
    rfl
  refine ⟨h1, ?_, traceStep_snd st ev⟩
  rw [h1]
  decide

/-- Witness for C10 at a concrete invocation whose stack inspection raises
a non-`IndexError`. -/
theorem C10_resolution_failure_witness :
    evOther.stackOutcome = .otherError
    ∧ (eventCaller evOther = "Unknown" ∧ eventCaller evOther ≠ "User"
        ∧ (traceStep initState evOther).2 = evOther.funcResult) :=
  ⟨rfl, C10_resolution_failure_unknown initState evOther rfl⟩

/-- C2: a run of N >= 3 consecutive calls with identical (caller, callee)
identity appends nothing during the repeats, and flushing (as
`get_diagram` does) appends exactly one `loop N times` open marker, the
representative line-set exactly once, and one `end` close marker. -/
theorem C2_loop_collapsed (st : TracerState) (ev : CallEvent) (evs : List CallEvent)
    (h0 : st.pending_call = none)
    (hall : ∀ e ∈ evs, eventIdentity e = eventIdentity ev)
    (hN : LOOP_THRESHOLD ≤ evs.length + 1) :
    (runTrace st (ev :: evs)).uml_lines = (traceStep st ev).1.uml_lines
    ∧ (getDiagram (runTrace st (ev :: evs))).1.uml_lines
        = (runTrace st (ev :: evs)).uml_lines
          ++ ["loop " ++ toString (evs.length + 1) ++ " times"]
          ++ eventLines ev ++ ["end"] := by
  have hstate := traceStep_state_none st ev h0
  have hpend1 : (traceStep st ev).1.pending_call
      = some { info := eventIdentity ev, lines := eventLines ev, count := 1 } := by
    rw [hstate]
  have hmem1 : eventCaller ev ∈ (traceStep st ev).1.participants := by
    rw [hstate]
    exact mem_addParticipant_of_mem _ _ _ (mem_addParticipant_self _ _)
  have hmem2 : ev.calleeName ∈ (traceStep st ev).1.participants := by
    rw [hstate]
    exact mem_addParticipant_self _ _
  have hrun : runTrace st (ev :: evs)
      = { (traceStep st ev).1 with
          pending_call := some { info := eventIdentity ev, lines := eventLines ev,
                                 count := 1 + evs.length } } := by
    rw [runTrace_cons]
    exact runTrace_repeat evs (traceStep st ev).1
      { info := eventIdentity ev, lines := eventLines ev, count := 1 }
      hpend1 (fun e he => hall e he) hmem1 hmem2
  constructor
  · rw [hrun]
  · have hflush := flushPendingCall_loop (runTrace st (ev :: evs))
      { info := eventIdentity ev, lines := eventLines ev, count := 1 + evs.length }
      (by rw [hrun]) (by show LOOP_THRESHOLD ≤ 1 + evs.length; omega)
    show (flushPendingCall (runTrace st (ev :: evs))).uml_lines = _
    rw [hflush]
    rw [Nat.add_comm 1 evs.length]

/-- Witness for C2: three consecutive `A -> B` calls from a fresh tracer. -/
theorem C2_loop_collapsed_witness :
    initState.pending_call = none
    ∧ (∀ e ∈ [evRep1, evRep2], eventIdentity e = eventIdentity evSucc)
    ∧ LOOP_THRESHOLD ≤ ([evRep1, evRep2] : List CallEvent).length + 1
    ∧ ((runTrace initState (evSucc :: [evRep1, evRep2])).uml_lines
          = (traceStep initState evSucc).1.uml_lines
        ∧ (getDiagram (runTrace initState (evSucc :: [evRep1, evRep2]))).1.uml_lines
            = (runTrace initState (evSucc :: [evRep1, evRep2])).uml_lines
              ++ ["loop " ++ toString (([evRep1, evRep2] : List CallEvent).length + 1) ++ " times"]
              ++ eventLines evSucc ++ ["end"]) :=
  ⟨rfl, by decide, by decide,
    C2_loop_collapsed initState evSucc [evRep1, evRep2] rfl (by decide) (by decide)⟩

/-- C3: a run of N consecutive identical-identity calls with 1 <= N < 3
appends nothing during the repeats, and flushing appends the
representative line-set exactly N times, unrolled; none of those lines is a
loop-open or loop-close marker. -/
theorem C3_unrolled (st : TracerState) (ev : CallEvent) (evs : List CallEvent)
    (h0 : st.pending_call = none)
    (hall : ∀ e ∈ evs, eventIdentity e = eventIdentity ev)
    (hN : evs.length + 1 < LOOP_THRESHOLD) :
    (runTrace st (ev :: evs)).uml_lines = (traceStep st ev).1.uml_lines
    ∧ (getDiagram (runTrace st (ev :: evs))).1.uml_lines
        = (runTrace st (ev :: evs)).uml_lines
          ++ (List.replicate (evs.length + 1) (eventLines ev)).flatten
    ∧ ∀ l ∈ eventLines ev,
        (∀ k : Nat, l ≠ "loop " ++ toString k ++ " times") ∧ l ≠ "end" := by
  have hstate := traceStep_state_none st ev h0
  have hpend1 : (traceStep st ev).1.pending_call
      = some { info := eventIdentity ev, lines := eventLines ev, count := 1 } := by
    rw [hstate]
  have hmem1 : eventCaller ev ∈ (traceStep st ev).1.participants := by
    rw [hstate]
    exact mem_addParticipant_of_mem _ _ _ (mem_addParticipant_self _ _)
  have hmem2 : ev.calleeName ∈ (traceStep st ev).1.participants := by
    rw [hstate]
    exact mem_addParticipant_self _ _
  have hrun : runTrace st (ev :: evs)
      = { (traceStep st ev).1 with
          pending_call := some { info := eventIdentity ev, lines := eventLines ev,
                                 count := 1 + evs.length } } := by
    rw [runTrace_cons]
    exact runTrace_repeat evs (traceStep st ev).1
      { info := eventIdentity ev, lines := eventLines ev, count := 1 }
      hpend1 (fun e he => hall e he) hmem1 hmem2
  refine ⟨by rw [hrun], ?_, eventLines_no_markers ev⟩
  have hflush := flushPendingCall_unroll (runTrace st (ev :: evs))
    { info := eventIdentity ev, lines := eventLines ev, count := 1 + evs.length }
    (by rw [hrun]) (by show 1 + evs.length < LOOP_THRESHOLD; omega)
  show (flushPendingCall (runTrace st (ev :: evs))).uml_lines = _
  rw [hflush]
  rw [Nat.add_comm 1 evs.length]

/-- Witness for C3: two consecutive `A -> B` calls from a fresh tracer. -/
theorem C3_unrolled_witness :
    initState.pending_call = none
    ∧ (∀ e ∈ [evRep1], eventIdentity e = eventIdentity evSucc)
    ∧ ([evRep1] : List CallEvent).length + 1 < LOOP_THRESHOLD
    ∧ ((runTrace initState (evSucc :: [evRep1])).uml_lines
          = (traceStep initState evSucc).1.uml_lines
        ∧ (getDiagram (runTrace initState (evSucc :: [evRep1]))).1.uml_lines
            = (runTrace initState (evSucc :: [evRep1])).uml_lines
              ++ (List.replicate (([evRep1] : List CallEvent).length + 1)
                    (eventLines evSucc)).flatten
        ∧ ∀ l ∈ eventLines evSucc,
            (∀ k : Nat, l ≠ "loop " ++ toString k ++ " times") ∧ l ≠ "end") :=
  ⟨rfl, by decide, by decide,
    C3_unrolled initState evSucc [evRep1] rfl (by decide) (by decide)⟩

/-- Counterexample to C4 as stated: one traced call from `A` to `B`
registers `A` first, yet the diagram declares `B` before `A`, so the
participant declarations are not in first-seen order. -/
theorem C4_counterexample_first_seen_order :
    (getDiagram (runTrace initState [evSucc])).1.uml_lines.take 3
        = ["@startuml", participantDecl "B", participantDecl "A"]
    ∧ firstSeenList (traceNames [evSucc]) = ["A", "B"]
    ∧ (getDiagram (runTrace initState [evSucc])).1.uml_lines.take 3
        ≠ ["@startuml", participantDecl "A", participantDecl "B"] := by
  refine ⟨by decide, by decide, by decide⟩

/-- C4 (amended): each distinct caller/callee name appears exactly once as
a participant declaration, the declarations form a contiguous block
immediately after the opening marker, and their order is the REVERSE of
first-seen order (each new declaration is inserted at index 1, in front of
the earlier ones); no body line is a participant declaration. -/
theorem C4_amended_participants_block (evs : List CallEvent) :
    ∃ body : List String,
      (getDiagram (runTrace initState evs)).1.uml_lines
        = "@startuml" :: ((firstSeenList (traceNames evs)).reverse.map participantDecl) ++ body
      ∧ (∀ l ∈ body, ∀ n : String, l ≠ participantDecl n)
      ∧ (firstSeenList (traceNames evs)).Nodup := by
  have hg : GoodState (runTrace initState evs) ([] ++ traceNames evs) :=
    runTrace_good evs initState [] initState_good
  simp only [List.nil_append] at hg
  obtain ⟨hp, ⟨body, hu, hb⟩, -⟩ := flush_good _ _ hg
  refine ⟨body, ?_, ?_, firstSeenList_nodup _⟩
  · show (flushPendingCall (runTrace initState evs)).uml_lines = _
    rw [hu, hp, seenAcc_eq_reverse]
  · intro l hl n heq
    apply hb l hl
    rw [heq]
    rfl

/-- C5: `_format_value` never raises (it is a total function in the
model); on an internal error in the try-body it returns
`"<Object type: {TypeName}>"`, and if retrieving the type name also fails
it returns the fixed literal `"<Error: Unformattable Object>"`; in every
case the result is a non-empty string. -/
theorem C5_formatValue_total_nonempty (v : Value) :
    formatValue v ≠ ""
    ∧ (formatValueCore v = .error () →
        formatValue v
          = match typeNameOf v with
            | .ok n => "<Object type: " ++ n ++ ">"
            | .error _ => "<Error: Unformattable Object>") := by
  constructor
  · apply str_ne_empty_of_length_pos
    cases v with
    | noneV => decide
    | classV n =>
        exact length_append_left_pos _ _ (length_append_left_pos _ _ (by decide))
    | dataframeV r c =>
        exact length_append_left_pos _ _ (length_append_left_pos _ _
          (length_append_left_pos _ _ (length_append_left_pos _ _ (by decide))))
    | seriesV nm len =>
        exact length_append_left_pos _ _ (length_append_left_pos _ _
          (length_append_left_pos _ _ (length_append_left_pos _ _ (by decide))))
    | strV s =>
        exact length_append_left_pos _ _ (length_append_left_pos _ _ (by decide))
    | intV n => exact intToString_length_pos n
    | floatV m e =>
        apply length_append_left_pos
        rw [String.length_append]
        have h1 : ("e" : String).length = 1 := rfl
        have h2 := intToString_length_pos m
        omega
    | boolV b => cases b <;> decide
    | pathV p =>
        exact length_append_left_pos _ _ (length_append_left_pos _ _ (by decide))
    | listV len =>
        exact length_append_left_pos _ _ (length_append_left_pos _ _ (by decide))
    | dictV len =>
        exact length_append_left_pos _ _ (length_append_left_pos _ _ (by decide))
    | tupleV len =>
        exact length_append_left_pos _ _ (length_append_left_pos _ _ (by decide))
    | objV n =>
        exact length_append_left_pos _ _ (length_append_left_pos _ _ (by decide))
    | exoticV bf tf n =>
        cases bf <;> cases tf
        · exact length_append_left_pos _ _ (length_append_left_pos _ _ (by decide))
        · exact (by decide : 0 < ("<Error: Unformattable Object>" : String).length)
        · exact length_append_left_pos _ _ (length_append_left_pos _ _ (by decide))
        · exact (by decide : 0 < ("<Error: Unformattable Object>" : String).length)
  · intro hcore
    cases v with
    | noneV => simp [formatValueCore] at hcore
    | classV n => simp [formatValueCore] at hcore
    | dataframeV r c => simp [formatValueCore] at hcore
    | seriesV nm len => simp [formatValueCore] at hcore
    | strV s => simp [formatValueCore] at hcore
    | intV n => simp [formatValueCore] at hcore
    | floatV m e => simp [formatValueCore] at hcore
    | boolV b => simp [formatValueCore] at hcore
    | pathV p => simp [formatValueCore] at hcore
    | listV len => simp [formatValueCore] at hcore
    | dictV len => simp [formatValueCore] at hcore
    | tupleV len => simp [formatValueCore] at hcore
    | objV n => simp [formatValueCore] at hcore
    | exoticV bf tf n =>
        cases bf <;> cases tf <;>
          simp [formatValue, formatValueCore, typeNameOf] at hcore ⊢

/-- Witness for C5 at a value whose try-body raises but whose type name is
retrievable: the formatter returns the `<Object type: ...>` fallback. -/
theorem C5_formatValue_witness :
    formatValueCore (.exoticV true false "Weird") = .error ()
    ∧ (formatValue (.exoticV true false "Weird") ≠ ""
        ∧ (formatValueCore (.exoticV true false "Weird") = .error () →
            formatValue (.exoticV true false "Weird")
              = match typeNameOf (.exoticV true false "Weird") with
                | .ok n => "<Object type: " ++ n ++ ">"
                | .error _ => "<Error: Unformattable Object>")) :=
  ⟨rfl, C5_formatValue_total_nonempty (.exoticV true false "Weird")⟩

/-- Counterexample to C7 as stated: a successful traced call returning 42
emits a return line that carries the f-string continuation indentation
between `": "` and `return`, and the exact claimed form
`"{callee}" --> "{caller}": return {value}` appears nowhere in the
diagram. -/
theorem C7_counterexample_return_line :
    ("\"B\" --> \"A\": " ++ returnIndent ++ "return 42")
        ∈ (getDiagram (runTrace initState [evSucc])).1.uml_lines
    ∧ ("\"B\" --> \"A\": return 42")
        ∉ (getDiagram (runTrace initState [evSucc])).1.uml_lines := by
  refine ⟨by decide, by decide⟩

/-- C7 (amended): for a first-of-run traced call the flushed diagram gains
exactly the call arrow, the activate line, then on success
`"{callee}" --> "{caller}": ` followed by the 28-space line-continuation
indentation and `return {value}`, or on failure exactly
`"{callee}" -x "{caller}": raise {FailureKind}`, and finally the
deactivate line. -/
theorem C7_amended_first_call_lines (st : TracerState) (ev : CallEvent)
    (h : st.pending_call = none) :
    (getDiagram (traceStep st ev).1).1.uml_lines
      = (traceStep st ev).1.uml_lines
        ++ ["\"" ++ eventCaller ev ++ "\" -> \"" ++ ev.calleeName ++ "\": "
              ++ callSignatureOf ev,
            "activate \"" ++ ev.calleeName ++ "\""]
        ++ (match ev.funcResult with
            | .ok r =>
                ["\"" ++ ev.calleeName ++ "\" --> \"" ++ eventCaller ev ++ "\": "
                  ++ returnIndent ++ "return " ++ formatValue r]
            | .error e =>
                ["\"" ++ ev.calleeName ++ "\" -x \"" ++ eventCaller ev ++ "\": raise "
                  ++ e.typeName])
        ++ ["deactivate \"" ++ ev.calleeName ++ "\""] := by
  have hstate := traceStep_state_none st ev h
  have hpend : (traceStep st ev).1.pending_call
      = some { info := eventIdentity ev, lines := eventLines ev, count := 1 } := by
    rw [hstate]
  show (flushPendingCall (traceStep st ev).1).uml_lines = _
  rw [flushPendingCall_unroll _ _ hpend (by show (1 : Nat) < LOOP_THRESHOLD; decide)]
  cases hr : ev.funcResult <;> simp [eventLines, hr]

/-- Witness for C7 (amended) at a concrete failing call. -/
theorem C7_amended_witness :
    initState.pending_call = none
    ∧ (getDiagram (traceStep initState evFail).1).1.uml_lines
        = (traceStep initState evFail).1.uml_lines
          ++ ["\"" ++ eventCaller evFail ++ "\" -> \"" ++ evFail.calleeName ++ "\": "
                ++ callSignatureOf evFail,
              "activate \"" ++ evFail.calleeName ++ "\""]
          ++ (match evFail.funcResult with
              | .ok r =>
                  ["\"" ++ evFail.calleeName ++ "\" --> \"" ++ eventCaller evFail ++ "\": "
                    ++ returnIndent ++ "return " ++ formatValue r]
              | .error e =>
                  ["\"" ++ evFail.calleeName ++ "\" -x \"" ++ eventCaller evFail ++ "\": raise "
                    ++ e.typeName])
          ++ ["deactivate \"" ++ evFail.calleeName ++ "\""] :=
  ⟨rfl, C7_amended_first_call_lines initState evFail rfl⟩

/-- C9: `render_plantuml_to_png` reports success only if the PNG exists
after the toolchain runs; it reports failure (returning `false`, never
raising — the model is a total function) when the source cannot be
written, the jar is missing, `java` is unavailable, or the toolchain exits
non-zero; and for every failure other than a source-write (or directory
creation) failure, the `.puml` source had already been written. -/
theorem C9_render_reporting (w : RenderWorld) :
    ((renderPlantumlToPng w).returnValue = true → w.pngExists = true)
    ∧ ((w.writeFails = true ∨ w.jarExists = false ∨ w.javaMissing = true ∨ w.exitCode ≠ 0) →
        (renderPlantumlToPng w).returnValue = false)
    ∧ ((renderPlantumlToPng w).returnValue = false →
        (renderPlantumlToPng w).failure ≠ some .writeError →
        (renderPlantumlToPng w).failure ≠ some .mkdirError →
        (renderPlantumlToPng w).pumlWritten = true) := by
  obtain ⟨mk, wf, je, jm, ec, pe⟩ := w
  cases mk <;> cases wf <;> cases je <;> cases jm <;> cases pe <;>
    by_cases hec : ec = 0 <;>
      simp [renderPlantumlToPng, hec]

/-- Witness for C9 in a world where the PlantUML jar is missing: the call
reports failure and the source file was nevertheless written. -/
theorem C9_render_reporting_witness :
    (renderPlantumlToPng w0).returnValue = false
    ∧ (renderPlantumlToPng w0).pumlWritten = true := by
  have h := C9_render_reporting w0
  refine ⟨h.2.1 (Or.inr (Or.inl rfl)), ?_⟩
  exact h.2.2 (h.2.1 (Or.inr (Or.inl rfl))) (by decide) (by decide)
